import Mathlib

/-!
Verification of the backfill/pagination engine of the fins3666-ta-code
repository against its natural-language specification.

The development shallowly embeds the paginated data-collection loops of
src/A1/activity1.py, src/A1/activity2.py and src/A1/activity3.py:

* timestamps are modelled as `Int` seconds (the code formats cursors with
  strftime at second granularity and decrements by `timedelta(seconds=1)`);
* the asynchronous gateway (IBKR TWS callbacks) is modelled as a function
  from page index to the outcome observed by the orchestrator loop for the
  request it issued at that index: either the bounded wait succeeded and a
  list of (reqId, record) deliveries was appended to the accumulation list,
  or the wait timed out, or the request raised an exception;
* Python exceptions are modelled with `Except`.

Ghost instrumentation (the `requests` list of issued end-timestamps and the
`reason` classifying which break exited the loop) records information that
is directly visible in the control flow of the Python source.
-/

namespace Backfill

/-- A trade tick as accumulated by the historicalTicksLast callback of
Activity 3 (src/A1/activity3.py lines 75-92): a timestamp (seconds) and a
price.  The price field keeps records at equal timestamps distinguishable,
as they are for the real feed. -/
structure Trade where
  time : Int
  price : Int
deriving DecidableEq, Repr

/-- Outcome observed by one iteration of the paging loop of
`_collect_trade_chunk` (src/A1/activity3.py lines 241-297) for the page
request it issued:

* `complete delivered`: `self.request_complete.wait(timeout=20)` returned
  True (the event was set by a done-callback, by historicalDataEnd, or by
  the error handler, which sets it for codes 162/200/354/10147/10148/2104/
  2106); `delivered` is the list of (reqId, tick) pairs appended to
  `self.historical_ticks` after `initial_tick_count` during this request;
* `timeout`: the 20-second wait elapsed without the event being set;
* `raised`: an exception was raised inside the try block. -/
inductive PageOutcome where
  | complete (delivered : List (Nat × Trade))
  | timeout
  | raised
deriving DecidableEq, Repr

/-- Which break exited the paging loop of `_collect_trade_chunk`
(ghost classification of the control flow of src/A1/activity3.py):

* `endOfData`: `len(page_ticks) < 1000` (line 279);
* `boundary`: `current_end < start_date` after the cursor update (line 288);
* `timeout`: the bounded wait returned False (line 269);
* `raised`: the except branch (line 292);
* `maxPagesHit`: the while condition `page_num < max_pages` failed. -/
inductive StopReason where
  | endOfData
  | boundary
  | timeout
  | raised
  | maxPagesHit
deriving DecidableEq, Repr

/-- Result of `_collect_trade_chunk`: the Python function returns only the
list `chunk_trades`; `reason` and `requests` (the endDateTime cursor of each
issued page request, in issue order) are ghost instrumentation. -/
structure ChunkResult where
  trades : List Trade
  reason : StopReason
  requests : List Int
deriving DecidableEq, Repr

/-- Request id of page `i` of chunk `c`:
`req_id = 2000 + (chunk_num * 100) + page_num` (src/A1/activity3.py
line 245). -/
def pageReqId (c i : Nat) : Nat := 2000 + c * 100 + i

/-- Minimum timestamp of a list of ticks, as computed by
`min(page_ticks, key=lambda x: x['time'])['time']` (src/A1/activity3.py
line 285).  Python min is only applied to nonempty lists; the value on `[]`
is an arbitrary default. -/
def minTime (l : List Trade) : Int :=
  match l with
  | [] => 0
  | t :: ts => ts.foldl (fun m x => min m x.time) t.time

/-- The page of ticks attributed to page request `i` of chunk `c`:
`page_ticks = [t for t in self.historical_ticks[initial_tick_count:] if
t['reqId'] == req_id]` (src/A1/activity3.py line 274).  For a timed-out or
raised request the code never reads a page (it breaks first). -/
def pageTicksAt (b : Nat → PageOutcome) (c i : Nat) : List Trade :=
  match b i with
  | .complete d => (d.filter (fun q => q.1 == pageReqId c i)).map Prod.snd
  | .timeout => []
  | .raised => []

/-- The paging loop of `_collect_trade_chunk` (src/A1/activity3.py lines
241-297), as a fuel recursion: `fuel = max_pages - page_num`.  Arguments:
fuel, page_num, current_end, chunk_trades, issued requests. -/
def chunkLoop (b : Nat → PageOutcome) (c : Nat) (startDate : Int) :
    Nat → Nat → Int → List Trade → List Int → ChunkResult
  | 0, _, _, acc, reqs => ⟨acc, .maxPagesHit, reqs⟩
  | fuel + 1, p, cursor, acc, reqs =>
    -- reqHistoricalTicks(..., endDateTime=current_end, numberOfTicks=1000)
    let reqs2 := reqs ++ [cursor]
    match b p with
    | .raised => ⟨acc, .raised, reqs2⟩
    | .timeout => ⟨acc, .timeout, reqs2⟩
    | .complete d =>
      let ts := (d.filter (fun q => q.1 == pageReqId c p)).map Prod.snd
      let acc2 := acc ++ ts
      if ts.length < 1000 then ⟨acc2, .endOfData, reqs2⟩
      else
        -- earliest_time - timedelta(seconds=1); break if below start_date
        if minTime ts - 1 < startDate then ⟨acc2, .boundary, reqs2⟩
        else chunkLoop b c startDate fuel (p + 1) (minTime ts - 1) acc2 reqs2

/-- `_collect_trade_chunk(contract, symbol, start_date, end_date, chunk_num)`
(src/A1/activity3.py lines 234-300): `max_pages = 10`, `current_end =
end_date`, `page_num = 0`, `chunk_trades = []`. -/
def collectTradeChunk (b : Nat → PageOutcome) (c : Nat)
    (startDate endDate : Int) : ChunkResult :=
  chunkLoop b c startDate 10 0 endDate [] []

/-- Concatenation of the pages `f p, f (p+1), ..., f (p+k-1)` in issue
order, mirroring the repeated `chunk_trades.extend(page_ticks)`. -/
def pagesConcat (f : Nat → List Trade) : Nat → Nat → List Trade
  | _, 0 => []
  | p, k + 1 => f p ++ pagesConcat f (p + 1) k

lemma pagesConcat_snoc (f : Nat → List Trade) :
    ∀ k p, pagesConcat f p (k + 1) = pagesConcat f p k ++ f (p + k) := by
  intro k
  induction k with
  | zero => intro p; simp [pagesConcat]
  | succ k ih =>
    intro p
    rw [show k + 1 + 1 = (k + 1) + 1 from rfl]
    show f p ++ pagesConcat f (p + 1) (k + 1) = pagesConcat f p (k + 1) ++ f (p + (k + 1))
    rw [ih (p + 1)]
    show f p ++ (pagesConcat f (p + 1) k ++ f (p + 1 + k))
        = (f p ++ pagesConcat f (p + 1) k) ++ f (p + (k + 1))
    rw [List.append_assoc, show p + (k + 1) = p + 1 + k by omega]

lemma mem_pagesConcat {f : Nat → List Trade} {a : Trade} :
    ∀ {k p}, a ∈ pagesConcat f p k → ∃ j, j < k ∧ a ∈ f (p + j) := by
  intro k
  induction k with
  | zero => intro p h; simp [pagesConcat] at h
  | succ k ih =>
    intro p h
    rw [show pagesConcat f p (k + 1) = f p ++ pagesConcat f (p + 1) k from rfl] at h
    rcases List.mem_append.mp h with h1 | h2
    · exact ⟨0, by omega, by simpa using h1⟩
    · obtain ⟨j, hj, hmem⟩ := ih h2
      exact ⟨j + 1, by omega, by rwa [show p + (j + 1) = p + 1 + j by omega]⟩

lemma pagesConcat_length {f : Nat → List Trade} {n : Nat} :
    ∀ {k p}, (∀ j, j < k → (f (p + j)).length = n) →
      (pagesConcat f p k).length = k * n := by
  intro k
  induction k with
  | zero => intro p _; simp [pagesConcat]
  | succ k ih =>
    intro p h
    rw [show pagesConcat f p (k + 1) = f p ++ pagesConcat f (p + 1) k from rfl]
    rw [List.length_append]
    have h0 : (f p).length = n := by simpa using h 0 (by omega)
    have hr : (pagesConcat f (p + 1) k).length = k * n := by
      apply ih
      intro j hj
      have := h (j + 1) (by omega)
      rwa [show p + (j + 1) = p + 1 + j by omega] at this
    rw [h0, hr]
    ring

lemma foldl_min_mem (l : List Trade) :
    ∀ v : Int, l.foldl (fun m x => min m x.time) v = v ∨
      ∃ x ∈ l, l.foldl (fun m x => min m x.time) v = x.time := by
  induction l with
  | nil => intro v; left; rfl
  | cons t rest ih =>
    intro v
    have hstep : (t :: rest).foldl (fun m x => min m x.time) v
        = rest.foldl (fun m x => min m x.time) (min v t.time) := rfl
    rcases le_or_lt v t.time with hle | hlt
    · have hmin : min v t.time = v := min_eq_left hle
      rcases ih v with h | ⟨x, hx, hfx⟩
      · left; rw [hstep, hmin]; exact h
      · right; exact ⟨x, List.mem_cons_of_mem _ hx, by rw [hstep, hmin]; exact hfx⟩
    · have hmin : min v t.time = t.time := min_eq_right (le_of_lt hlt)
      rcases ih t.time with h | ⟨x, hx, hfx⟩
      · right; exact ⟨t, List.mem_cons_self _ _, by rw [hstep, hmin]; exact h⟩
      · right; exact ⟨x, List.mem_cons_of_mem _ hx, by rw [hstep, hmin]; exact hfx⟩

/-- The minimum computed at src/A1/activity3.py line 285 is the timestamp of
some record of the page. -/
lemma minTime_mem {l : List Trade} (h : l ≠ []) :
    ∃ x ∈ l, minTime l = x.time := by
  match l, h with
  | t :: rest, _ =>
    rcases foldl_min_mem rest t.time with h1 | ⟨x, hx, hfx⟩
    · exact ⟨t, List.mem_cons_self _ _, h1⟩
    · exact ⟨x, List.mem_cons_of_mem _ hx, hfx⟩

/-- One-step unfolding equation of the paging loop. -/
lemma chunkLoop_succ (b : Nat → PageOutcome) (c : Nat) (s : Int)
    (fuel p : Nat) (cursor : Int) (acc : List Trade) (reqs : List Int) :
    chunkLoop b c s (fuel + 1) p cursor acc reqs =
      match b p with
      | .raised => ⟨acc, .raised, reqs ++ [cursor]⟩
      | .timeout => ⟨acc, .timeout, reqs ++ [cursor]⟩
      | .complete d =>
        let ts := (d.filter (fun q => q.1 == pageReqId c p)).map Prod.snd
        if ts.length < 1000 then ⟨acc ++ ts, .endOfData, reqs ++ [cursor]⟩
        else if minTime ts - 1 < s then ⟨acc ++ ts, .boundary, reqs ++ [cursor]⟩
        else chunkLoop b c s fuel (p + 1) (minTime ts - 1) (acc ++ ts)
          (reqs ++ [cursor]) := rfl

lemma chunkLoop_eq_raised {b : Nat → PageOutcome} {c : Nat} {s : Int}
    {fuel p : Nat} {cursor : Int} {acc : List Trade} {reqs : List Int}
    (hb : b p = .raised) :
    chunkLoop b c s (fuel + 1) p cursor acc reqs
      = ⟨acc, .raised, reqs ++ [cursor]⟩ := by
  rw [chunkLoop_succ, hb]

lemma chunkLoop_eq_timeout {b : Nat → PageOutcome} {c : Nat} {s : Int}
    {fuel p : Nat} {cursor : Int} {acc : List Trade} {reqs : List Int}
    (hb : b p = .timeout) :
    chunkLoop b c s (fuel + 1) p cursor acc reqs
      = ⟨acc, .timeout, reqs ++ [cursor]⟩ := by
  rw [chunkLoop_succ, hb]

lemma chunkLoop_eq_complete {b : Nat → PageOutcome} {c : Nat} {s : Int}
    {fuel p : Nat} {cursor : Int} {acc : List Trade} {reqs : List Int}
    {d : List (Nat × Trade)} (hb : b p = .complete d) :
    chunkLoop b c s (fuel + 1) p cursor acc reqs =
      (if (pageTicksAt b c p).length < 1000 then
        ⟨acc ++ pageTicksAt b c p, .endOfData, reqs ++ [cursor]⟩
      else if minTime (pageTicksAt b c p) - 1 < s then
        ⟨acc ++ pageTicksAt b c p, .boundary, reqs ++ [cursor]⟩
      else chunkLoop b c s fuel (p + 1) (minTime (pageTicksAt b c p) - 1)
        (acc ++ pageTicksAt b c p) (reqs ++ [cursor])) := by
  rw [chunkLoop_succ, hb]
  simp only [pageTicksAt, hb]

/-- Master structural lemma for the paging loop of `_collect_trade_chunk`:
the issued requests extend the accumulator `reqs` by a list `tail` bounded
by the remaining fuel; the collected trades are the concatenation of the
pages of the issued requests in issue order; the first issued cursor is the
entry cursor and every later one is the minimum timestamp of the previous
(necessarily full) page minus one second; a timed-out, raised, or short
page is always the last issued request and fixes the exit classification;
and if every page within fuel is complete, full, and keeps the cursor at or
above the window start, the loop exhausts its fuel. -/
lemma chunkLoop_spec (b : Nat → PageOutcome) (c : Nat) (s : Int) :
    ∀ (fuel p : Nat) (cursor : Int) (acc : List Trade) (reqs : List Int),
    ∃ tail : List Int,
      (chunkLoop b c s fuel p cursor acc reqs).requests = reqs ++ tail ∧
      tail.length ≤ fuel ∧
      (chunkLoop b c s fuel p cursor acc reqs).trades
        = acc ++ pagesConcat (pageTicksAt b c) p tail.length ∧
      (0 < tail.length → tail.getD 0 0 = cursor) ∧
      (∀ j, j + 1 < tail.length →
        1000 ≤ (pageTicksAt b c (p + j)).length ∧
        tail.getD (j + 1) 0 = minTime (pageTicksAt b c (p + j)) - 1) ∧
      (∀ j, j < tail.length → b (p + j) = .timeout →
        j + 1 = tail.length ∧
        (chunkLoop b c s fuel p cursor acc reqs).reason = .timeout) ∧
      (∀ j, j < tail.length → b (p + j) = .raised →
        j + 1 = tail.length ∧
        (chunkLoop b c s fuel p cursor acc reqs).reason = .raised) ∧
      (∀ j, j < tail.length → (∃ d, b (p + j) = .complete d) →
        (pageTicksAt b c (p + j)).length < 1000 →
        j + 1 = tail.length ∧
        (chunkLoop b c s fuel p cursor acc reqs).reason = .endOfData) ∧
      ((∀ j, j < fuel →
          (∃ d, b (p + j) = .complete d) ∧
          (pageTicksAt b c (p + j)).length = 1000 ∧
          s ≤ minTime (pageTicksAt b c (p + j)) - 1) →
        tail.length = fuel ∧
        (chunkLoop b c s fuel p cursor acc reqs).reason = .maxPagesHit) := by
  intro fuel
  induction fuel with
  | zero =>
    intro p cursor acc reqs
    refine ⟨[], by simp [chunkLoop], by simp, by simp [chunkLoop, pagesConcat],
      by simp, by simp, by simp, by simp, by simp, ?_⟩
    intro _
    exact ⟨rfl, by simp [chunkLoop]⟩
  | succ fuel ih =>
    intro p cursor acc reqs
    cases hb : b p with
    | raised =>
      rw [chunkLoop_eq_raised hb]
      refine ⟨[cursor], rfl, by simp, ?_, by intro _; rfl, by simp, ?_, ?_, ?_, ?_⟩
      · simp [pagesConcat, pageTicksAt, hb]
      · intro j hj hbj
        have hj0 : j = 0 := by simpa using hj
        subst hj0
        rw [Nat.add_zero, hb] at hbj
        exact absurd hbj (by simp)
      · intro j hj _
        have hj0 : j = 0 := by simpa using hj
        subst hj0
        exact ⟨rfl, rfl⟩
      · intro j hj hbj
        have hj0 : j = 0 := by simpa using hj
        subst hj0
        obtain ⟨d, hd⟩ := hbj
        rw [Nat.add_zero, hb] at hd
        exact absurd hd (by simp)
      · intro H
        obtain ⟨⟨d, hd⟩, -, -⟩ := H 0 (by omega)
        rw [Nat.add_zero, hb] at hd
        exact absurd hd (by simp)
    | timeout =>
      rw [chunkLoop_eq_timeout hb]
      refine ⟨[cursor], rfl, by simp, ?_, by intro _; rfl, by simp, ?_, ?_, ?_, ?_⟩
      · simp [pagesConcat, pageTicksAt, hb]
      · intro j hj _
        have hj0 : j = 0 := by simpa using hj
        subst hj0
        exact ⟨rfl, rfl⟩
      · intro j hj hbj
        have hj0 : j = 0 := by simpa using hj
        subst hj0
        rw [Nat.add_zero, hb] at hbj
        exact absurd hbj (by simp)
      · intro j hj hbj
        have hj0 : j = 0 := by simpa using hj
        subst hj0
        obtain ⟨d, hd⟩ := hbj
        rw [Nat.add_zero, hb] at hd
        exact absurd hd (by simp)
      · intro H
        obtain ⟨⟨d, hd⟩, -, -⟩ := H 0 (by omega)
        rw [Nat.add_zero, hb] at hd
        exact absurd hd (by simp)
    | complete d =>
      rw [chunkLoop_eq_complete hb]
      by_cases hlen : (pageTicksAt b c p).length < 1000
      · rw [if_pos hlen]
        refine ⟨[cursor], rfl, by simp, ?_, by intro _; rfl, by simp, ?_, ?_, ?_, ?_⟩
        · simp [pagesConcat]
        · intro j hj hbj
          have hj0 : j = 0 := by simpa using hj
          subst hj0
          rw [Nat.add_zero, hb] at hbj
          exact absurd hbj (by simp)
        · intro j hj hbj
          have hj0 : j = 0 := by simpa using hj
          subst hj0
          rw [Nat.add_zero, hb] at hbj
          exact absurd hbj (by simp)
        · intro j hj _ _
          have hj0 : j = 0 := by simpa using hj
          subst hj0
          exact ⟨rfl, rfl⟩
        · intro H
          obtain ⟨-, hfull, -⟩ := H 0 (by omega)
          rw [Nat.add_zero] at hfull
          omega
      · rw [if_neg hlen]
        by_cases hbd : minTime (pageTicksAt b c p) - 1 < s
        · rw [if_pos hbd]
          refine ⟨[cursor], rfl, by simp, ?_, by intro _; rfl, by simp, ?_, ?_, ?_, ?_⟩
          · simp [pagesConcat]
          · intro j hj hbj
            have hj0 : j = 0 := by simpa using hj
            subst hj0
            rw [Nat.add_zero, hb] at hbj
            exact absurd hbj (by simp)
          · intro j hj hbj
            have hj0 : j = 0 := by simpa using hj
            subst hj0
            rw [Nat.add_zero, hb] at hbj
            exact absurd hbj (by simp)
          · intro j hj _ hshort
            have hj0 : j = 0 := by simpa using hj
            subst hj0
            rw [Nat.add_zero] at hshort
            omega
          · intro H
            obtain ⟨-, -, hcb⟩ := H 0 (by omega)
            rw [Nat.add_zero] at hcb
            omega
        · rw [if_neg hbd]
          obtain ⟨tail, h1, h2, h3, h4, h5, h6, h7, h8, h9⟩ :=
            ih (p + 1) (minTime (pageTicksAt b c p) - 1)
              (acc ++ pageTicksAt b c p) (reqs ++ [cursor])
          refine ⟨cursor :: tail, ?_, ?_, ?_, by intro _; rfl, ?_, ?_, ?_, ?_, ?_⟩
          · rw [h1]; simp
          · simp; omega
          · rw [h3, List.length_cons,
              show pagesConcat (pageTicksAt b c) p (tail.length + 1)
                = pageTicksAt b c p
                  ++ pagesConcat (pageTicksAt b c) (p + 1) tail.length from rfl,
              List.append_assoc]
          · intro j hj
            cases j with
            | zero =>
              refine ⟨by rw [Nat.add_zero]; omega, ?_⟩
              rw [List.getD_cons_succ]
              rw [Nat.add_zero]
              exact h4 (by simpa using hj)
            | succ j =>
              have hj' : j + 1 < tail.length := by simpa using hj
              obtain ⟨ha, hg⟩ := h5 j hj'
              rw [show p + (j + 1) = p + 1 + j by omega]
              exact ⟨ha, by rw [List.getD_cons_succ]; exact hg⟩
          · intro j hj hbj
            cases j with
            | zero =>
              rw [Nat.add_zero, hb] at hbj
              exact absurd hbj (by simp)
            | succ j =>
              have hj' : j < tail.length := by simpa using hj
              rw [show p + (j + 1) = p + 1 + j by omega] at hbj
              obtain ⟨he, hr⟩ := h6 j hj' hbj
              exact ⟨by simp; omega, hr⟩
          · intro j hj hbj
            cases j with
            | zero =>
              rw [Nat.add_zero, hb] at hbj
              exact absurd hbj (by simp)
            | succ j =>
              have hj' : j < tail.length := by simpa using hj
              rw [show p + (j + 1) = p + 1 + j by omega] at hbj
              obtain ⟨he, hr⟩ := h7 j hj' hbj
              exact ⟨by simp; omega, hr⟩
          · intro j hj hbj hshort
            cases j with
            | zero =>
              rw [Nat.add_zero] at hshort
              omega
            | succ j =>
              have hj' : j < tail.length := by simpa using hj
              rw [show p + (j + 1) = p + 1 + j by omega] at hbj hshort
              obtain ⟨he, hr⟩ := h8 j hj' hbj hshort
              exact ⟨by simp; omega, hr⟩
          · intro H
            have H' : ∀ j, j < fuel →
                (∃ e, b (p + 1 + j) = .complete e) ∧
                (pageTicksAt b c (p + 1 + j)).length = 1000 ∧
                s ≤ minTime (pageTicksAt b c (p + 1 + j)) - 1 := by
              intro j hjf
              have := H (j + 1) (by omega)
              rwa [show p + (j + 1) = p + 1 + j by omega] at this
            obtain ⟨hl, hr⟩ := h9 H'
            exact ⟨by simp [hl], hr⟩

lemma collect_requests_eq_tail (b : Nat → PageOutcome) (c : Nat) (s e : Int) :
    ∀ tail, (chunkLoop b c s 10 0 e [] []).requests = [] ++ tail →
      (collectTradeChunk b c s e).requests = tail := by
  intro tail h
  simpa [collectTradeChunk] using h

lemma collect_requests_le (b : Nat → PageOutcome) (c : Nat) (s e : Int) :
    (collectTradeChunk b c s e).requests.length ≤ 10 := by
  obtain ⟨tail, h1, h2, -⟩ := chunkLoop_spec b c s 10 0 e [] []
  rw [collect_requests_eq_tail b c s e tail h1]
  exact h2

lemma collect_trades_eq (b : Nat → PageOutcome) (c : Nat) (s e : Int) :
    (collectTradeChunk b c s e).trades
      = pagesConcat (pageTicksAt b c) 0 (collectTradeChunk b c s e).requests.length := by
  obtain ⟨tail, h1, -, h3, -⟩ := chunkLoop_spec b c s 10 0 e [] []
  rw [collect_requests_eq_tail b c s e tail h1]
  simpa [collectTradeChunk] using h3

lemma collect_head (b : Nat → PageOutcome) (c : Nat) (s e : Int) :
    0 < (collectTradeChunk b c s e).requests.length →
      (collectTradeChunk b c s e).requests.getD 0 0 = e := by
  obtain ⟨tail, h1, -, -, h4, -⟩ := chunkLoop_spec b c s 10 0 e [] []
  rw [collect_requests_eq_tail b c s e tail h1]
  exact h4

lemma collect_chain (b : Nat → PageOutcome) (c : Nat) (s e : Int) (j : Nat) :
    j + 1 < (collectTradeChunk b c s e).requests.length →
      1000 ≤ (pageTicksAt b c j).length ∧
      (collectTradeChunk b c s e).requests.getD (j + 1) 0
        = minTime (pageTicksAt b c j) - 1 := by
  obtain ⟨tail, h1, -, -, -, h5, -⟩ := chunkLoop_spec b c s 10 0 e [] []
  rw [collect_requests_eq_tail b c s e tail h1]
  intro hj
  simpa using h5 j hj

lemma collect_timeout (b : Nat → PageOutcome) (c : Nat) (s e : Int) (j : Nat) :
    j < (collectTradeChunk b c s e).requests.length → b j = .timeout →
      j + 1 = (collectTradeChunk b c s e).requests.length ∧
      (collectTradeChunk b c s e).reason = .timeout := by
  obtain ⟨tail, h1, -, -, -, -, h6, -⟩ := chunkLoop_spec b c s 10 0 e [] []
  rw [collect_requests_eq_tail b c s e tail h1]
  intro hj hbj
  simpa [collectTradeChunk] using h6 j hj (by simpa using hbj)

lemma collect_raised (b : Nat → PageOutcome) (c : Nat) (s e : Int) (j : Nat) :
    j < (collectTradeChunk b c s e).requests.length → b j = .raised →
      j + 1 = (collectTradeChunk b c s e).requests.length ∧
      (collectTradeChunk b c s e).reason = .raised := by
  obtain ⟨tail, h1, -, -, -, -, -, h7, -⟩ := chunkLoop_spec b c s 10 0 e [] []
  rw [collect_requests_eq_tail b c s e tail h1]
  intro hj hbj
  simpa [collectTradeChunk] using h7 j hj (by simpa using hbj)

lemma collect_endOfData (b : Nat → PageOutcome) (c : Nat) (s e : Int) (j : Nat) :
    j < (collectTradeChunk b c s e).requests.length →
      (∃ d, b j = .complete d) → (pageTicksAt b c j).length < 1000 →
      j + 1 = (collectTradeChunk b c s e).requests.length ∧
      (collectTradeChunk b c s e).reason = .endOfData := by
  obtain ⟨tail, h1, -, -, -, -, -, -, h8, -⟩ := chunkLoop_spec b c s 10 0 e [] []
  rw [collect_requests_eq_tail b c s e tail h1]
  intro hj hbj hshort
  simpa [collectTradeChunk] using h8 j hj (by simpa using hbj) (by simpa using hshort)

lemma collect_full (b : Nat → PageOutcome) (c : Nat) (s e : Int) :
    (∀ j, j < 10 →
      (∃ d, b j = .complete d) ∧
      (pageTicksAt b c j).length = 1000 ∧
      s ≤ minTime (pageTicksAt b c j) - 1) →
    (collectTradeChunk b c s e).requests.length = 10 ∧
      (collectTradeChunk b c s e).reason = .maxPagesHit := by
  obtain ⟨tail, h1, -, -, -, -, -, -, -, h9⟩ := chunkLoop_spec b c s 10 0 e [] []
  rw [collect_requests_eq_tail b c s e tail h1]
  intro H
  have := h9 (by intro j hj; simpa using H j hj)
  simpa [collectTradeChunk] using this

/-! ### Activity 1: `_collect_historical_trades` and `collect_single_stock_data` -/

/-- A row of Activity 1's `self.historical_ticks` list.  The
historicalTicksLast callback (src/A1/activity1.py lines 51-65) appends a
dict carrying a reqId key, so `reqId = some r`; the historicalTicks
callback (lines 35-49) appends a dict WITHOUT a reqId key, modelled as
`reqId = none`.  Looking up the missing key raises KeyError. -/
structure Tick1 where
  reqId : Option Nat
  time : Int
deriving DecidableEq, Repr

/-- What one iteration of Activity 1's chunk loop observes: the rows
appended to `self.historical_ticks` during this iteration, and whether
`request_complete` was set before `wait(timeout=5)` returned.  The code
never inspects the wait result (src/A1/activity1.py line 141). -/
structure A1Page where
  delivered : List Tick1
  completed : Bool

/-- `len([t for t in self.historical_ticks if t['reqId'] == req_id + chunk])`
(src/A1/activity1.py line 144).  Python evaluates `t['reqId']` for every
element; the first row lacking the key raises KeyError, modelled as
`Except.error ()`. -/
def countMatching (l : List Tick1) (r : Nat) : Except Unit Nat :=
  match l with
  | [] => .ok 0
  | t :: rest =>
    match t.reqId with
    | none => .error ()
    | some rid =>
      match countMatching rest r with
      | .error err => .error err
      | .ok n => .ok (if rid = r then n + 1 else n)

/-- Minimum timestamp of a list of Activity 1 rows, as computed by
`min(chunk_trades, key=lambda x: x['time'])['time']` (line 154). -/
def minTime1 (l : List Tick1) : Int :=
  match l with
  | [] => 0
  | t :: ts => ts.foldl (fun m x => min m x.time) t.time

/-- Result of `_collect_historical_trades`: the accumulated global
`self.historical_ticks` list (the function itself returns None; the rows
are later read by collect_single_stock_data), plus the ghost list of
issued request end-timestamps. -/
structure A1Result where
  ticks : List Tick1
  requests : List Int
deriving DecidableEq, Repr

/-- The chunk loop of `_collect_historical_trades` (src/A1/activity1.py
lines 116-158), as a fuel recursion over `for chunk in range(2)`.
Arguments: fuel, chunk, current_end, historical_ticks, issued requests.
The wait result is not inspected; the loop breaks only on
`current_chunk_trades < 1000`; on a full count it recomputes the matching
rows and sets `current_end` to their minimum timestamp minus one second.
A missing reqId key propagates KeyError out of the function. -/
def a1Go (b : Nat → A1Page) : Nat → Nat → Int → List Tick1 → List Int →
    Except Unit A1Result
  | 0, _, _, glob, reqs => .ok ⟨glob, reqs⟩
  | fuel + 1, chunk, cursor, glob, reqs =>
    let glob2 := glob ++ (b chunk).delivered
    let reqs2 := reqs ++ [cursor]
    match countMatching glob2 (1000 + chunk) with
    | .error err => .error err
    | .ok n =>
      if n < 1000 then .ok ⟨glob2, reqs2⟩
      else
        let matching := glob2.filter (fun t => t.reqId == some (1000 + chunk))
        a1Go b fuel (chunk + 1) (minTime1 matching - 1) glob2 reqs2

/-- `_collect_historical_trades(contract, end_date)`: `req_id = 1000`,
`current_end = end_date`, two chunks (`for chunk in range(2)`, line 124). -/
def collectHistoricalTrades (b : Nat → A1Page) (endDate : Int) :
    Except Unit A1Result :=
  a1Go b 2 0 endDate [] []

/-- Matching rows of Activity 1 chunk 0: the rows delivered during chunk 0
whose reqId equals 1000 (the global list holds only chunk 0 deliveries at
that point). -/
def a1Matching0 (b : Nat → A1Page) : List Tick1 :=
  (b 0).delivered.filter (fun t => t.reqId == some 1000)

/-- A bar dict appended by Activity 1's historicalData callback
(src/A1/activity1.py lines 67-83). -/
structure Bar where
  datetime : String
  open_ : Int
  high : Int
  low : Int
  close : Int
  volume : Int
  wap : Int
  count : Int
deriving DecidableEq, Repr

/-- Does `pat` occur as a contiguous substring, starting at the head? -/
def listHasPrefixChars : List Char → List Char → Bool
  | _, [] => true
  | [], _ :: _ => false
  | a :: as, x :: xs => a == x && listHasPrefixChars as xs

/-- Does `pat` occur as a contiguous substring anywhere in `l`?  Mirrors the
Python `pat in s` membership test on strings. -/
def listContainsSub : List Char → List Char → Bool
  | [], pat => pat.isEmpty
  | a :: rest, pat => listHasPrefixChars (a :: rest) pat || listContainsSub rest pat

/-- Python substring membership `pat in s`. -/
def containsSub (s pat : String) : Bool :=
  listContainsSub s.toList pat.toList

/-- The string rendering of a bar dict tested by the interval filters at
src/A1/activity1.py lines 111-113 (`'1 min' in str(b)` etc.).  The braces,
quotes, and key punctuation of the Python repr contain none of the probed
substrings, so only the keys and rendered field values are kept. -/
def barStr (b : Bar) : String :=
  "datetime: " ++ b.datetime ++ ", open: " ++ toString b.open_ ++
  ", high: " ++ toString b.high ++ ", low: " ++ toString b.low ++
  ", close: " ++ toString b.close ++ ", volume: " ++ toString b.volume ++
  ", wap: " ++ toString b.wap ++ ", count: " ++ toString b.count

/-- The dict returned by `collect_single_stock_data`
(src/A1/activity1.py lines 109-114); pandas DataFrames are modelled as the
lists they are built from. -/
structure SingleStockData where
  trades : List Tick1
  bars_1min : List Bar
  bars_5min : List Bar
  bars_15min : List Bar
deriving DecidableEq, Repr

/-- `collect_single_stock_data(symbol, exchange, target_date)`
(src/A1/activity1.py lines 85-114): runs `_collect_historical_trades`
(whose KeyError, if any, escapes uncaught), accumulates bar rows delivered
during `_collect_historical_bars` into `self.historical_bars` (`bars`),
and builds the returned dict with the three substring filters. -/
def collectSingleStockData (tb : Nat → A1Page) (bars : List Bar)
    (endDate : Int) : Except Unit SingleStockData :=
  match collectHistoricalTrades tb endDate with
  | .error err => .error err
  | .ok r =>
    .ok ⟨r.ticks,
      bars.filter (fun b2 => containsSub (barStr b2) "1 min"),
      bars.filter (fun b2 => containsSub (barStr b2) "5 min"),
      bars.filter (fun b2 => containsSub (barStr b2) "15 min")⟩

/-! ### Activity 2: `_collect_trades` -/

/-- The chunk loop of Activity 2's `_collect_trades` (src/A1/activity2.py
lines 167-191): `for chunk in range(1)`; on a timed-out wait the loop
breaks (lines 187-189), otherwise it sleeps and continues.  `waitOk chunk`
tells whether `request_complete.wait(timeout=5)` returned True.  The same
`end_date` is used for every issued request (no cursor update).  The ghost
result is the list of issued request end-timestamps. -/
def a2Go (waitOk : Nat → Bool) (endDate : Int) : Nat → Nat → List Int →
    List Int
  | 0, _, reqs => reqs
  | fuel + 1, chunk, reqs =>
    let reqs2 := reqs ++ [endDate]
    if waitOk chunk then a2Go waitOk endDate fuel (chunk + 1) reqs2
    else reqs2

/-- `_collect_trades(contract, end_date)` issues its requests over
`range(1)`. -/
def collectTrades2 (waitOk : Nat → Bool) (endDate : Int) : List Int :=
  a2Go waitOk endDate 1 0 []

/-! ### The three `error` callbacks -/

/-- Observable effect of an `error` callback on the orchestrator: whether
it sets the `request_complete` event (resolving the pending wait as if the
page completed), and how many seconds it sleeps. -/
structure ErrorEffect where
  setsComplete : Bool
  sleepSeconds : Nat
deriving DecidableEq, Repr

/-- Activity 1's `error` (src/A1/activity1.py lines 29-33): code 162 logs a
pacing warning and sleeps 10 seconds; the completion event is never set. -/
def error1 (code : Int) : ErrorEffect :=
  ⟨false, if code = 162 then 10 else 0⟩

/-- Activity 2's `error` (src/A1/activity2.py lines 30-34): identical to
Activity 1's. -/
def error2 (code : Int) : ErrorEffect :=
  ⟨false, if code = 162 then 10 else 0⟩

/-- Activity 3's `error` (src/A1/activity3.py lines 34-46): appends to
`self.error_messages` and sets `request_complete` for codes
162, 200, 354, 10147, 10148, 2104, 2106; it never sleeps. -/
def error3 (code : Int) : ErrorEffect :=
  ⟨([162, 200, 354, 10147, 10148, 2104, 2106] : List Int).contains code, 0⟩

/-! ### Activity 3: `_collect_bbo_minute_data` and `collect_comprehensive_data` -/

/-- Outcome of one 7-day block request of `_collect_bbo_minute_data`
(src/A1/activity3.py lines 362-413): either the 60-second wait succeeded
and `delivered` is the list of (reqId, bar) rows appended to
`self.historical_bars` after `initial_bar_count`, or it timed out (the
block is skipped, the loop continues). -/
inductive BlockOutcome where
  | success (delivered : List (Nat × Bar))
  | timeout
deriving DecidableEq, Repr

/-- A bid/ask tick of Activity 3's historicalTicksBidAsk callback; never
constructed by the active code path. -/
structure BidAskTick where
  time : Int
  bid : Int
  ask : Int
deriving DecidableEq, Repr

/-- The block loop of `_collect_bbo_minute_data`: while
`current_start < end_date`, request 7 days of 1-minute BID_ASK bars ending
at `chunk_end = min(current_start + 7d, end_date)` with
`req_id = 3000 + block_num`, keep the matching rows on success, and advance
`current_start = chunk_end + 1 day`.  Dates are modelled as `Int` days;
fuel bounds the (always terminating) while loop. -/
def bboGo (bb : Nat → BlockOutcome) (endDate : Int) :
    Nat → Nat → Int → List Bar → List Bar
  | 0, _, _, acc => acc
  | fuel + 1, blockNum, currentStart, acc =>
    if currentStart < endDate then
      let chunkEnd := min (currentStart + 7) endDate
      let acc2 :=
        match bb blockNum with
        | .success d =>
          acc ++ (d.filter (fun q => q.1 == 3000 + blockNum)).map Prod.snd
        | .timeout => acc
      bboGo bb endDate fuel (blockNum + 1) (chunkEnd + 1) acc2
    else acc

/-- `_collect_bbo_minute_data(contract, symbol, start_date, end_date)`:
each loop iteration advances `current_start` by at least two days, so
`(endDate - startDate).toNat + 1` fuel is never exhausted. -/
def collectBboMinuteData (bb : Nat → BlockOutcome) (startDate endDate : Int) :
    List Bar :=
  bboGo bb endDate ((endDate - startDate).toNat + 1) 0 startDate []

/-- The dict returned by `collect_comprehensive_data`
(src/A1/activity3.py lines 137-166). -/
structure ComprehensiveResults where
  eod_1year : Option (List Bar)
  trades_3months : Option (List Trade)
  bbo_3months_1min : Option (List Bar)
  bbo_1day_1sec : Option (List BidAskTick)
deriving DecidableEq, Repr

/-- `collect_comprehensive_data(symbol, exchange)` (src/A1/activity3.py
lines 114-166): `now = datetime.now() - timedelta(days=1)`,
`three_months_ago = now - timedelta(days=90)`; the eod_1year,
trades_3months and bbo_1day_1sec entries are assigned the literal None
(their collection calls are commented out at lines 143, 150, 164); only
`_collect_bbo_minute_data` runs. -/
def collectComprehensiveData (bb : Nat → BlockOutcome) (today : Int) :
    ComprehensiveResults :=
  let now := today - 1
  let threeMonthsAgo := now - 90
  { eod_1year := none
    trades_3months := none
    bbo_3months_1min := some (collectBboMinuteData bb threeMonthsAgo now)
    bbo_1day_1sec := none }

/-! ### Case analysis of the Activity 1 two-chunk loop -/

lemma a1Go_succ (b : Nat → A1Page) (fuel chunk : Nat) (cursor : Int)
    (glob : List Tick1) (reqs : List Int) :
    a1Go b (fuel + 1) chunk cursor glob reqs =
      match countMatching (glob ++ (b chunk).delivered) (1000 + chunk) with
      | .error err => .error err
      | .ok n =>
        if n < 1000 then .ok ⟨glob ++ (b chunk).delivered, reqs ++ [cursor]⟩
        else a1Go b fuel (chunk + 1)
          (minTime1 ((glob ++ (b chunk).delivered).filter
            (fun t => t.reqId == some (1000 + chunk))) - 1)
          (glob ++ (b chunk).delivered) (reqs ++ [cursor]) := rfl

/-- Complete case analysis of `_collect_historical_trades`: a KeyError in
the chunk 0 count, a short chunk 0 (one request), a KeyError in the
chunk 1 count, or two requests with the second cursor derived from the
chunk 0 minimum timestamp minus one second. -/
lemma collectHistoricalTrades_cases (b : Nat → A1Page) (e : Int) :
    (∃ err, countMatching (b 0).delivered 1000 = .error err ∧
      collectHistoricalTrades b e = .error err) ∨
    (∃ n, countMatching (b 0).delivered 1000 = .ok n ∧ n < 1000 ∧
      collectHistoricalTrades b e = .ok ⟨(b 0).delivered, [e]⟩) ∨
    (∃ n, countMatching (b 0).delivered 1000 = .ok n ∧ 1000 ≤ n ∧
      ((∃ err, countMatching ((b 0).delivered ++ (b 1).delivered) 1001
          = .error err ∧ collectHistoricalTrades b e = .error err) ∨
       (∃ m, countMatching ((b 0).delivered ++ (b 1).delivered) 1001 = .ok m ∧
        collectHistoricalTrades b e
          = .ok ⟨(b 0).delivered ++ (b 1).delivered,
              [e, minTime1 (a1Matching0 b) - 1]⟩))) := by
  have hunf : collectHistoricalTrades b e = a1Go b 2 0 e [] [] := rfl
  rw [hunf, a1Go_succ]
  simp only [List.nil_append, Nat.add_zero]
  split
  case _ err heq => exact Or.inl ⟨err, heq, rfl⟩
  case _ n heq =>
    split
    case _ hn => exact Or.inr (Or.inl ⟨n, heq, hn, rfl⟩)
    case _ hn =>
      rw [a1Go_succ]
      norm_num only
      split
      case _ err2 heq2 =>
        exact Or.inr (Or.inr ⟨n, heq, by omega, Or.inl ⟨err2, heq2, rfl⟩⟩)
      case _ m heq2 =>
        refine Or.inr (Or.inr ⟨n, heq, by omega, Or.inr ⟨m, heq2, ?_⟩⟩)
        split
        case _ => rfl
        case _ => rfl

lemma countMatching_ok_length {l : List Tick1} {r n : Nat} :
    countMatching l r = .ok n →
      n = (l.filter (fun t => t.reqId == some r)).length := by
  induction l generalizing n with
  | nil =>
    intro h
    have : n = 0 := by
      have := h.symm
      simpa [countMatching] using this
    simp [this]
  | cons t rest ih =>
    intro h
    rw [countMatching] at h
    cases ht : t.reqId with
    | none => rw [ht] at h; cases h
    | some rid =>
      rw [ht] at h
      cases hcm : countMatching rest r with
      | error err => rw [hcm] at h; cases h
      | ok k =>
        rw [hcm] at h
        have hk := ih hcm
        have hn : n = if rid = r then k + 1 else k := by
          have := h.symm
          simpa using this
        by_cases hr : rid = r
        · subst hr
          rw [if_pos rfl] at hn
          simp [List.filter_cons, ht, hk, hn]
        · rw [if_neg hr] at hn
          simp [List.filter_cons, ht, hr, hk, hn]

lemma countMatching_ok_of_tagged {l : List Tick1} (r : Nat)
    (h : ∀ t ∈ l, t.reqId ≠ none) :
    ∃ n, countMatching l r = .ok n := by
  induction l with
  | nil => exact ⟨0, rfl⟩
  | cons t rest ih =>
    obtain ⟨k, hk⟩ := ih (fun x hx => h x (List.mem_cons_of_mem _ hx))
    cases ht : t.reqId with
    | none => exact absurd ht (h t (List.mem_cons_self _ _))
    | some rid =>
      refine ⟨if rid = r then k + 1 else k, ?_⟩
      rw [countMatching, ht, hk]

lemma countMatching_replicate (k : Nat) (r2 : Nat) (tm : Int) (r : Nat) :
    countMatching (List.replicate k ⟨some r2, tm⟩) r
      = .ok (if r2 = r then k else 0) := by
  induction k with
  | zero => simp [countMatching]
  | succ k ih =>
    rw [List.replicate_succ, countMatching, ih]
    by_cases hr : r2 = r
    · simp [hr]
    · simp [hr]

lemma foldl_min_const (t : Trade) :
    ∀ n, (List.replicate n t).foldl (fun m x => min m x.time) t.time
      = t.time := by
  intro n
  induction n with
  | zero => rfl
  | succ n ih =>
    rw [List.replicate_succ, List.foldl_cons, min_self]
    exact ih

lemma minTime_replicate {n : Nat} (t : Trade) (h : n ≠ 0) :
    minTime (List.replicate n t) = t.time := by
  cases n with
  | zero => omega
  | succ n =>
    rw [List.replicate_succ]
    show (List.replicate n t).foldl (fun m x => min m x.time) t.time = t.time
    exact foldl_min_const t n

lemma foldl_min_const1 (t : Tick1) :
    ∀ n, (List.replicate n t).foldl (fun m x => min m x.time) t.time
      = t.time := by
  intro n
  induction n with
  | zero => rfl
  | succ n ih =>
    rw [List.replicate_succ, List.foldl_cons, min_self]
    exact ih

lemma minTime1_replicate {n : Nat} (t : Tick1) (h : n ≠ 0) :
    minTime1 (List.replicate n t) = t.time := by
  cases n with
  | zero => omega
  | succ n =>
    rw [List.replicate_succ]
    show (List.replicate n t).foldl (fun m x => min m x.time) t.time = t.time
    exact foldl_min_const1 t n

lemma all_replicate_succ {α : Type} (a : α) (p : α → Bool) :
    ∀ n : Nat, (List.replicate (n + 1) a).all p = p a := by
  intro n
  induction n with
  | zero => simp
  | succ k ih =>
    rw [List.replicate_succ, List.all_cons, ih, Bool.and_self]

lemma all_replicate {α : Type} {n : Nat} (a : α) (p : α → Bool) (h : n ≠ 0) :
    (List.replicate n a).all p = p a := by
  cases n with
  | zero => omega
  | succ k => exact all_replicate_succ a p k

/-! ### Concrete gateway behaviors used by witnesses and counterexamples -/

lemma pageTicksAt_complete {b : Nat → PageOutcome} {c i : Nat}
    {d : List (Nat × Trade)} (hb : b i = .complete d) :
    pageTicksAt b c i = (d.filter (fun q => q.1 == pageReqId c i)).map Prod.snd := by
  simp only [pageTicksAt, hb]

/-- Gateway behavior: page 0 delivers a full page of 1000 trades at
timestamp 100 for reqId 2000, every later page completes empty. -/
def wOneFull : Nat → PageOutcome := fun i =>
  if i = 0 then .complete (List.replicate 1000 (2000, ⟨100, 0⟩))
  else .complete []

lemma pageTicksAt_wOneFull0 :
    pageTicksAt wOneFull 0 0 = List.replicate 1000 ⟨100, 0⟩ := by
  rw [pageTicksAt_complete
    (show wOneFull 0 = .complete (List.replicate 1000 (2000, ⟨100, 0⟩)) from rfl)]
  rw [List.filter_replicate, if_pos (by norm_num [pageReqId]),
    List.map_replicate]

lemma pageTicksAt_wOneFull1 : pageTicksAt wOneFull 0 1 = [] := by
  rw [pageTicksAt_complete (show wOneFull 1 = .complete [] from rfl)]
  rfl

lemma wOneFull_run :
    collectTradeChunk wOneFull 0 0 200
      = ⟨List.replicate 1000 ⟨100, 0⟩, .endOfData, [200, 99]⟩ := by
  have hb0 : wOneFull 0 = .complete (List.replicate 1000 (2000, ⟨100, 0⟩)) := rfl
  have hb1 : wOneFull 1 = .complete [] := rfl
  rw [show collectTradeChunk wOneFull 0 0 200
      = chunkLoop wOneFull 0 0 10 0 200 [] [] from rfl]
  rw [show (10 : Nat) = 9 + 1 from rfl, chunkLoop_eq_complete hb0,
    pageTicksAt_wOneFull0]
  rw [List.length_replicate, if_neg (by omega),
    minTime_replicate _ (by omega)]
  rw [if_neg (by norm_num)]
  rw [show (9 : Nat) = 8 + 1 from rfl, chunkLoop_eq_complete hb1,
    pageTicksAt_wOneFull1]
  rw [if_pos (by decide)]
  rw [List.append_nil, List.nil_append, List.nil_append,
    show (100 : Int) - 1 = 99 from by norm_num]
  rfl

/-- Gateway behavior: every page delivers a full page of 1000 trades at
timestamp 1 for reqId 2000 (so page 0 already spans below any positive
window start). -/
def wLowFull : Nat → PageOutcome := fun _ =>
  .complete (List.replicate 1000 (2000, ⟨1, 0⟩))

lemma pageTicksAt_wLowFull0 :
    pageTicksAt wLowFull 0 0 = List.replicate 1000 ⟨1, 0⟩ := by
  rw [pageTicksAt_complete
    (show wLowFull 0 = .complete (List.replicate 1000 (2000, ⟨1, 0⟩)) from rfl)]
  rw [List.filter_replicate, if_pos (by norm_num [pageReqId]),
    List.map_replicate]

lemma wLowFull_run :
    collectTradeChunk wLowFull 0 500 2000
      = ⟨List.replicate 1000 ⟨1, 0⟩, .boundary, [2000]⟩ := by
  have hb0 : wLowFull 0 = .complete (List.replicate 1000 (2000, ⟨1, 0⟩)) := rfl
  rw [show collectTradeChunk wLowFull 0 500 2000
      = chunkLoop wLowFull 0 500 10 0 2000 [] [] from rfl]
  rw [show (10 : Nat) = 9 + 1 from rfl, chunkLoop_eq_complete hb0,
    pageTicksAt_wLowFull0]
  rw [List.length_replicate, if_neg (by omega),
    minTime_replicate _ (by omega)]
  rw [if_pos (by norm_num)]
  rw [List.nil_append, List.nil_append]

/-- Activity 1 behavior: chunk 0 delivers 1000 rows tagged reqId 1000 at
timestamp 50 but the completion event is never set (the bounded wait times
out); chunk 1 delivers nothing and completes. -/
def cexTimeoutFull : Nat → A1Page := fun i =>
  if i = 0 then ⟨List.replicate 1000 ⟨some 1000, 50⟩, false⟩
  else ⟨[], true⟩

lemma cexTimeoutFull_matching :
    a1Matching0 cexTimeoutFull = List.replicate 1000 ⟨some 1000, 50⟩ := by
  rw [a1Matching0,
    show (cexTimeoutFull 0).delivered
      = List.replicate 1000 ⟨some 1000, 50⟩ from rfl]
  rw [List.filter_replicate, if_pos (by decide)]

lemma cexTimeoutFull_run :
    collectHistoricalTrades cexTimeoutFull 100
      = .ok ⟨List.replicate 1000 ⟨some 1000, 50⟩, [100, 49]⟩ := by
  have hd0 : (cexTimeoutFull 0).delivered
      = List.replicate 1000 ⟨some 1000, 50⟩ := rfl
  have hd1 : (cexTimeoutFull 1).delivered = [] := rfl
  have hc0 : countMatching (cexTimeoutFull 0).delivered 1000 = .ok 1000 := by
    rw [hd0, countMatching_replicate, if_pos rfl]
  have hc1 : countMatching
      ((cexTimeoutFull 0).delivered ++ (cexTimeoutFull 1).delivered) 1001
      = .ok 0 := by
    rw [hd0, hd1, List.append_nil, countMatching_replicate,
      if_neg (by omega)]
  rcases collectHistoricalTrades_cases cexTimeoutFull 100 with
    ⟨err, he, -⟩ | ⟨n, hn, hlt, -⟩ | ⟨n, hn, hge, ⟨err, he, -⟩ | ⟨m, hm, hres⟩⟩
  · rw [hc0] at he; cases he
  · rw [hc0] at hn
    have : n = 1000 := by simpa using hn.symm
    omega
  · rw [hc1] at he; cases he
  · rw [hres, cexTimeoutFull_matching, minTime1_replicate _ (by omega), hd0, hd1,
      List.append_nil, show (50 : Int) - 1 = 49 from by norm_num]

/-! ### Claim C1 -/

/-- C1: For every page of the backward-paging loop that completes with a
full page (pageLimit = 1000 records), the next page request's end timestamp
equals the minimum timestamp among that page's records minus one second;
the cursor is never set from windowStart or any other value.  First
conjunct: Activity 3's `_collect_trade_chunk` — whenever request `i + 1`
was issued, page `i` was full and the new end timestamp is the page `i`
minimum minus one second.  Second conjunct: Activity 1's
`_collect_historical_trades` — when a second request is issued, chunk 0
counted at least 1000 matching rows and the second end timestamp is the
chunk 0 matching minimum minus one second. -/
theorem c1_cursor_decrement :
    (∀ (b : Nat → PageOutcome) (c : Nat) (s e : Int) (i : Nat),
      i + 1 < (collectTradeChunk b c s e).requests.length →
        1000 ≤ (pageTicksAt b c i).length ∧
        (collectTradeChunk b c s e).requests.getD (i + 1) 0
          = minTime (pageTicksAt b c i) - 1) ∧
    (∀ (b : Nat → A1Page) (e : Int) (r : A1Result),
      collectHistoricalTrades b e = .ok r →
      1 < r.requests.length →
        1000 ≤ (a1Matching0 b).length ∧
        r.requests.getD 1 0 = minTime1 (a1Matching0 b) - 1) := by
  constructor
  · exact fun b c s e i hi => collect_chain b c s e i hi
  · intro b e r hok h1
    rcases collectHistoricalTrades_cases b e with
      ⟨err, he, hres⟩ | ⟨n, hn, hlt, hres⟩ |
      ⟨n, hn, hge, ⟨err, he, hres⟩ | ⟨m, hm, hres⟩⟩
    · rw [hres] at hok; cases hok
    · rw [hres] at hok
      injection hok with hr
      rw [← hr] at h1
      simp at h1
    · rw [hres] at hok; cases hok
    · rw [hres] at hok
      injection hok with hr
      subst hr
      refine ⟨?_, rfl⟩
      have hcl := countMatching_ok_length hn
      have : (a1Matching0 b).length
          = ((b 0).delivered.filter (fun t => t.reqId == some 1000)).length := by
        rw [a1Matching0]
      omega

/-- C1 witness: concrete runs of both loops in which a second page request
is issued after a full first page. -/
theorem c1_cursor_decrement_witness :
    (0 + 1 < (collectTradeChunk wOneFull 0 0 200).requests.length ∧
      (1000 ≤ (pageTicksAt wOneFull 0 0).length ∧
        (collectTradeChunk wOneFull 0 0 200).requests.getD (0 + 1) 0
          = minTime (pageTicksAt wOneFull 0 0) - 1)) ∧
    ((1 : Nat) <
        (A1Result.mk (List.replicate 1000 ⟨some 1000, 50⟩) [100, 49]).requests.length ∧
      (1000 ≤ (a1Matching0 cexTimeoutFull).length ∧
        (A1Result.mk (List.replicate 1000 ⟨some 1000, 50⟩) [100, 49]).requests.getD 1 0
          = minTime1 (a1Matching0 cexTimeoutFull) - 1)) := by
  have ha3 : 0 + 1 < (collectTradeChunk wOneFull 0 0 200).requests.length := by
    rw [wOneFull_run]
    norm_num
  have ha1 : (1 : Nat) <
      (A1Result.mk (List.replicate 1000 ⟨some 1000, 50⟩) [100, 49]).requests.length := by
    norm_num
  exact ⟨⟨ha3, c1_cursor_decrement.1 wOneFull 0 0 200 0 ha3⟩,
    ⟨ha1, c1_cursor_decrement.2 cexTimeoutFull 100
      ⟨List.replicate 1000 ⟨some 1000, 50⟩, [100, 49]⟩ cexTimeoutFull_run ha1⟩⟩

/-! ### Claim C2 -/

/-- C2: every completed page with fewer than pageLimit = 1000 records —
including a page with zero records — is kept in the accumulated series and
terminates the paging loop as natural end-of-data; no further page request
is issued in that loop.  First conjunct: Activity 3's
`_collect_trade_chunk` — a short complete page `i` is the last issued
request, the exit is classified end-of-data, and the returned trades are
the earlier pages followed by page `i` itself.  Second conjunct:
Activity 1's `_collect_historical_trades` — a short chunk 0 count ends the
loop after a single request with all delivered rows kept. -/
theorem c2_short_page_terminates :
    (∀ (b : Nat → PageOutcome) (c : Nat) (s e : Int) (i : Nat)
      (d : List (Nat × Trade)),
      i < (collectTradeChunk b c s e).requests.length →
      b i = .complete d →
      (pageTicksAt b c i).length < 1000 →
        (collectTradeChunk b c s e).requests.length = i + 1 ∧
        (collectTradeChunk b c s e).reason = .endOfData ∧
        (collectTradeChunk b c s e).trades
          = pagesConcat (pageTicksAt b c) 0 i ++ pageTicksAt b c i) ∧
    (∀ (b : Nat → A1Page) (e : Int) (n : Nat),
      countMatching (b 0).delivered 1000 = .ok n →
      n < 1000 →
        collectHistoricalTrades b e = .ok ⟨(b 0).delivered, [e]⟩) := by
  constructor
  · intro b c s e i d hi hb hshort
    obtain ⟨h1, h2⟩ := collect_endOfData b c s e i hi ⟨d, hb⟩ hshort
    refine ⟨h1.symm, h2, ?_⟩
    rw [collect_trades_eq, ← h1, pagesConcat_snoc, Nat.zero_add]
  · intro b e n hn hlt
    rcases collectHistoricalTrades_cases b e with
      ⟨err, he, hres⟩ | ⟨m, hm, hmlt, hres⟩ |
      ⟨m, hm, hge, ⟨err, he, hres⟩ | ⟨m2, hm2, hres⟩⟩
    · rw [hn] at he; cases he
    · exact hres
    · rw [hn] at hm
      injection hm with hnm
      omega
    · rw [hn] at hm
      injection hm with hnm
      omega

/-- Gateway behavior completing every page with zero records. -/
def wEmpty : Nat → PageOutcome := fun _ => .complete []

/-- Activity 1 behavior delivering nothing and completing each wait. -/
def wA1Empty : Nat → A1Page := fun _ => ⟨[], true⟩

/-- C2 witness: a zero-record complete page ends both loops after one
request with the (empty) page kept. -/
theorem c2_short_page_terminates_witness :
    ((collectTradeChunk wEmpty 0 0 100).requests.length = 0 + 1 ∧
      (collectTradeChunk wEmpty 0 0 100).reason = .endOfData ∧
      (collectTradeChunk wEmpty 0 0 100).trades
        = pagesConcat (pageTicksAt wEmpty 0) 0 0 ++ pageTicksAt wEmpty 0 0) ∧
    collectHistoricalTrades wA1Empty 100 = .ok ⟨(wA1Empty 0).delivered, [100]⟩ := by
  refine ⟨c2_short_page_terminates.1 wEmpty 0 0 100 0 [] ?_ rfl (by decide),
    c2_short_page_terminates.2 wA1Empty 100 0 rfl (by decide)⟩
  show 0 < (collectTradeChunk wEmpty 0 0 100).requests.length
  rw [show collectTradeChunk wEmpty 0 0 100
    = ⟨[], .endOfData, [100]⟩ from rfl]
  decide

/-! ### Claim C3 -/

/-- C3 counterexample: Activity 1's `_collect_historical_trades` ignores
the Boolean result of `request_complete.wait(timeout=5)` (line 141).  With
chunk 0 timing out (completed = false) while a full page of 1000 tagged
rows was delivered, the loop still issues a second page request, so the
claim that an elapsed wait always breaks the loop with no further page
request is false at this input. -/
theorem c3_timeout_cex :
    (cexTimeoutFull 0).completed = false ∧
    collectHistoricalTrades cexTimeoutFull 100
      = .ok ⟨List.replicate 1000 ⟨some 1000, 50⟩, [100, 49]⟩ ∧
    (A1Result.mk (List.replicate 1000 ⟨some 1000, 50⟩) [100, 49]).requests.length
      = 2 := ⟨rfl, cexTimeoutFull_run, rfl⟩

/-- C3 (amended): in Activity 3's `_collect_trade_chunk` (and Activity 2's
`_collect_trades`, a single-iteration loop) a timed-out wait breaks the
loop immediately: the timed-out request is the last issued, the exit is
classified timeout, and only the pages collected before it are returned.
In Activity 1 the wait result is ignored and the loop continues exactly
when 1000 or more matching rows were delivered (see the counterexample). -/
theorem c3_timeout_breaks :
    (∀ (b : Nat → PageOutcome) (c : Nat) (s e : Int) (i : Nat),
      i < (collectTradeChunk b c s e).requests.length →
      b i = .timeout →
        (collectTradeChunk b c s e).requests.length = i + 1 ∧
        (collectTradeChunk b c s e).reason = .timeout ∧
        (collectTradeChunk b c s e).trades
          = pagesConcat (pageTicksAt b c) 0 i) ∧
    (∀ (waitOk : Nat → Bool) (e : Int), (collectTrades2 waitOk e).length = 1) := by
  constructor
  · intro b c s e i hi hb
    obtain ⟨h1, h2⟩ := collect_timeout b c s e i hi hb
    refine ⟨h1.symm, h2, ?_⟩
    rw [collect_trades_eq, ← h1, pagesConcat_snoc, Nat.zero_add,
      show pageTicksAt b c i = [] from by simp only [pageTicksAt, hb],
      List.append_nil]
  · intro w e
    cases hw : w 0 <;> simp [collectTrades2, a2Go, hw]

/-- Gateway behavior timing out every page request. -/
def wTimeout : Nat → PageOutcome := fun _ => .timeout

/-- C3 witness (for the amended claim): a timeout on page 0 of Activity 3
returns the empty partial series after a single request, and Activity 2's
loop issues exactly one request. -/
theorem c3_timeout_breaks_witness :
    ((collectTradeChunk wTimeout 0 0 100).requests.length = 0 + 1 ∧
      (collectTradeChunk wTimeout 0 0 100).reason = .timeout ∧
      (collectTradeChunk wTimeout 0 0 100).trades
        = pagesConcat (pageTicksAt wTimeout 0) 0 0) ∧
    (collectTrades2 (fun _ => false) 7).length = 1 := by
  refine ⟨c3_timeout_breaks.1 wTimeout 0 0 100 0 ?_ rfl,
    c3_timeout_breaks.2 (fun _ => false) 7⟩
  show 0 < (collectTradeChunk wTimeout 0 0 100).requests.length
  rw [show collectTradeChunk wTimeout 0 0 100 = ⟨[], .timeout, [100]⟩ from rfl]
  decide

/-! ### Claim C4 -/

/-- C4 counterexample: in Activity 3 the `error` handler resolves a pacing
violation (code 162) by setting the `request_complete` event — the pending
bounded wait returns as if the page completed, rather than the request
remaining outstanding until its per-request timeout — and it sleeps zero
seconds, so no cooldown delay precedes the next page request. -/
theorem c4_pacing_cex :
    (error3 162).setsComplete = true ∧ (error3 162).sleepSeconds = 0 := by
  decide

/-- C4 (amended): in Activities 1 and 2 a code-162 pacing violation leaves
the completion event unset — the in-flight request stays outstanding until
its bounded wait elapses — and imposes a fixed 10-second sleep; in
Activity 3 the handler instead sets the completion event, resolving the
pending wait as if the page completed, and imposes no delay. -/
theorem c4_pacing_effects :
    (error1 162).setsComplete = false ∧ (error1 162).sleepSeconds = 10 ∧
    (error2 162).setsComplete = false ∧ (error2 162).sleepSeconds = 10 ∧
    (error3 162).setsComplete = true ∧ (error3 162).sleepSeconds = 0 := by
  decide

/-! ### Claim C5 -/

/-- Non-decreasing timestamp order, the ordering the spec asserts for
assembled Series. -/
def sortedNonDec : List Trade → Bool
  | [] => true
  | [_] => true
  | a :: b2 :: rest => decide (a.time ≤ b2.time) && sortedNonDec (b2 :: rest)

/-- No two records share a timestamp (instrument and data kind are fixed
within one chunk), the deduplication property the spec asserts for
assembled Series. -/
def timesDistinct : List Trade → Bool
  | [] => true
  | a :: rest => rest.all (fun b2 => a.time != b2.time) && timesDistinct rest

/-- Gateway behavior whose single short page arrives out of order and
holds two records at the same timestamp (two trades in the same second). -/
def cexUnsorted : Nat → PageOutcome := fun i =>
  if i = 0 then .complete [(2000, ⟨5, 0⟩), (2000, ⟨3, 0⟩), (2000, ⟨3, 1⟩)]
  else .timeout

/-- C5 counterexample: `_collect_trade_chunk` returns its pages exactly as
they arrived: the result of this run is neither sorted into ascending
timestamp order nor free of duplicate timestamps (and the Python function
returns only the bare list — no completeness flag accompanies it). -/
theorem c5_not_assembled_cex :
    (collectTradeChunk cexUnsorted 0 0 100).trades
      = [⟨5, 0⟩, ⟨3, 0⟩, ⟨3, 1⟩] ∧
    sortedNonDec (collectTradeChunk cexUnsorted 0 0 100).trades = false ∧
    timesDistinct (collectTradeChunk cexUnsorted 0 0 100).trades = false := by
  decide

/-- C5 (amended): the trades returned by `_collect_trade_chunk` are exactly
the concatenation, in request-issue order, of the record batches delivered
for each issued request — no reversal, no sorting, no removal of duplicate
(timestamp, instrumentKey, dataKind) entries, and no completeness flag is
attached (the function returns the bare list). -/
theorem c5_raw_concatenation :
    ∀ (b : Nat → PageOutcome) (c : Nat) (s e : Int),
      (collectTradeChunk b c s e).trades
        = pagesConcat (pageTicksAt b c) 0
            (collectTradeChunk b c s e).requests.length :=
  collect_trades_eq

/-! ### Claim C6 -/

/-- Every record timestamp lies inside the inclusive window — the boundary
property the spec asserts for all produced Series. -/
def allWithin (l : List Trade) (s e : Int) : Bool :=
  l.all (fun t => decide (s ≤ t.time) && decide (t.time ≤ e))

/-- C6 counterexample: a full page whose records lie below windowStart is
kept whole (pages are never truncated), so the produced series contains
records outside `[windowStart, windowEnd]`: with windowStart = 500, the
run keeps 1000 records at timestamp 1. -/
theorem c6_boundary_cex :
    (collectTradeChunk wLowFull 0 500 2000).trades
      = List.replicate 1000 ⟨1, 0⟩ ∧
    allWithin (collectTradeChunk wLowFull 0 500 2000).trades 500 2000
      = false := by
  constructor
  · rw [wLowFull_run]
  · rw [wLowFull_run]
    show (List.replicate 1000 (⟨1, 0⟩ : Trade)).all
      (fun t => decide (500 ≤ t.time) && decide (t.time ≤ 2000)) = false
    rw [all_replicate _ _ (by omega)]
    decide

/-- C6 (amended): provided the gateway delivers only records timestamped at
or before the end timestamp of the request they answer, every collected
record's timestamp is at most windowEnd; records earlier than windowStart
can still be kept, because a full page spanning past windowStart is
appended uncut and the loop stops only via the next cursor boundary check
(the counterexample exhibits such a run). -/
theorem c6_upper_bound :
    ∀ (b : Nat → PageOutcome) (c : Nat) (s e : Int),
      (∀ j, j < (collectTradeChunk b c s e).requests.length →
        ∀ t ∈ pageTicksAt b c j,
          t.time ≤ (collectTradeChunk b c s e).requests.getD j 0) →
      ∀ t ∈ (collectTradeChunk b c s e).trades, t.time ≤ e := by
  intro b c s e honest t ht
  have hmem : t ∈ pagesConcat (pageTicksAt b c) 0
      (collectTradeChunk b c s e).requests.length := by
    rw [← collect_trades_eq]
    exact ht
  obtain ⟨j, hj, hmemj⟩ := mem_pagesConcat hmem
  rw [Nat.zero_add] at hmemj
  have hbound : ∀ k, k < (collectTradeChunk b c s e).requests.length →
      (collectTradeChunk b c s e).requests.getD k 0 ≤ e := by
    intro k
    induction k with
    | zero =>
      intro hk
      exact le_of_eq (collect_head b c s e hk)
    | succ k ihk =>
      intro hk
      obtain ⟨hfull, hg⟩ := collect_chain b c s e k hk
      have hne : pageTicksAt b c k ≠ [] := by
        intro hnil
        rw [hnil] at hfull
        simp at hfull
      obtain ⟨x, hx, hminx⟩ := minTime_mem hne
      have hxle : x.time ≤ (collectTradeChunk b c s e).requests.getD k 0 :=
        honest k (by omega) x hx
      have hkle : (collectTradeChunk b c s e).requests.getD k 0 ≤ e :=
        ihk (by omega)
      rw [hg, hminx]
      omega
  have h1 := honest j hj t hmemj
  have h2 := hbound j hj
  omega

/-- Gateway behavior delivering one record at timestamp 50 on page 0. -/
def wSmallPage : Nat → PageOutcome := fun i =>
  if i = 0 then .complete [(2000, ⟨50, 0⟩)] else .timeout

/-- C6 witness: an honest one-page run whose single record respects the
upper window bound. -/
theorem c6_upper_bound_witness :
    (∀ j, j < (collectTradeChunk wSmallPage 0 0 100).requests.length →
      ∀ t ∈ pageTicksAt wSmallPage 0 j,
        t.time ≤ (collectTradeChunk wSmallPage 0 0 100).requests.getD j 0) ∧
    (∀ t ∈ (collectTradeChunk wSmallPage 0 0 100).trades, t.time ≤ 100) := by
  have hh : ∀ j, j < (collectTradeChunk wSmallPage 0 0 100).requests.length →
      ∀ t ∈ pageTicksAt wSmallPage 0 j,
        t.time ≤ (collectTradeChunk wSmallPage 0 0 100).requests.getD j 0 := by
    decide
  exact ⟨hh, c6_upper_bound wSmallPage 0 0 100 hh⟩

/-! ### Claim C7 -/

/-- C7: the paging loop of `_collect_trade_chunk` issues at most
max_pages = 10 page requests per chunk; with a gateway always returning
exactly pageLimit = 1000 records (and keeping the cursor at or above the
window start), the loop stops after exactly 10 pages with 10 × 1000
records accumulated, classified as the page-ceiling exit — distinct from
the timeout, raised, end-of-data, and boundary exits, i.e. a partial
result, not an error.  (The code attaches no explicit completeness flag to
the returned list — compare C5; the partial character is visible in the
exit classification.)  The last conjunct is the two-request ceiling of
Activity 1's `range(2)` loop. -/
theorem c7_max_pages :
    (∀ (b : Nat → PageOutcome) (c : Nat) (s e : Int),
      (collectTradeChunk b c s e).requests.length ≤ 10) ∧
    (∀ (b : Nat → PageOutcome) (c : Nat) (s e : Int),
      (∀ j, j < 10 →
        (∃ d, b j = .complete d) ∧
        (pageTicksAt b c j).length = 1000 ∧
        s ≤ minTime (pageTicksAt b c j) - 1) →
      (collectTradeChunk b c s e).requests.length = 10 ∧
      (collectTradeChunk b c s e).trades.length = 10 * 1000 ∧
      (collectTradeChunk b c s e).reason = .maxPagesHit) ∧
    (∀ (b : Nat → A1Page) (e : Int) (r : A1Result),
      collectHistoricalTrades b e = .ok r → r.requests.length ≤ 2) := by
  refine ⟨collect_requests_le, ?_, ?_⟩
  · intro b c s e H
    obtain ⟨hlen, hreason⟩ := collect_full b c s e H
    refine ⟨hlen, ?_, hreason⟩
    rw [collect_trades_eq, hlen]
    exact pagesConcat_length (fun j hj => by simpa using (H j hj).2.1)
  · intro b e r hok
    rcases collectHistoricalTrades_cases b e with
      ⟨err, he, hres⟩ | ⟨n, hn, hlt, hres⟩ |
      ⟨n, hn, hge, ⟨err, he, hres⟩ | ⟨m, hm, hres⟩⟩
    · rw [hres] at hok; cases hok
    · rw [hres] at hok
      injection hok with hr
      rw [← hr]
      norm_num
    · rw [hres] at hok; cases hok
    · rw [hres] at hok
      injection hok with hr
      rw [← hr]
      norm_num

/-- Gateway behavior returning, for every page `j`, a full page of 1000
records at timestamp `20 - j`, correctly tagged for chunk 0. -/
def wAllFull : Nat → PageOutcome := fun j =>
  .complete (List.replicate 1000 (pageReqId 0 j, ⟨20 - (j : Int), 0⟩))

lemma pageTicksAt_wAllFull (j : Nat) :
    pageTicksAt wAllFull 0 j = List.replicate 1000 ⟨20 - (j : Int), 0⟩ := by
  rw [pageTicksAt_complete (show wAllFull j
    = .complete (List.replicate 1000 (pageReqId 0 j, ⟨20 - (j : Int), 0⟩))
    from rfl)]
  rw [List.filter_replicate, if_pos (by simp), List.map_replicate]

/-- C7 witness: the always-full gateway drives the loop to exactly 10
requests and 10000 records with the page-ceiling exit. -/
theorem c7_max_pages_witness :
    (∀ j, j < 10 →
      (∃ d, wAllFull j = .complete d) ∧
      (pageTicksAt wAllFull 0 j).length = 1000 ∧
      (0 : Int) ≤ minTime (pageTicksAt wAllFull 0 j) - 1) ∧
    ((collectTradeChunk wAllFull 0 0 2000).requests.length = 10 ∧
      (collectTradeChunk wAllFull 0 0 2000).trades.length = 10 * 1000 ∧
      (collectTradeChunk wAllFull 0 0 2000).reason = .maxPagesHit) := by
  have H : ∀ j, j < 10 →
      (∃ d, wAllFull j = .complete d) ∧
      (pageTicksAt wAllFull 0 j).length = 1000 ∧
      (0 : Int) ≤ minTime (pageTicksAt wAllFull 0 j) - 1 := by
    intro j hj
    refine ⟨⟨_, rfl⟩, ?_, ?_⟩
    · rw [pageTicksAt_wAllFull, List.length_replicate]
    · rw [pageTicksAt_wAllFull, minTime_replicate _ (by omega)]
      show (0 : Int) ≤ 20 - (j : Int) - 1
      omega
  exact ⟨H, c7_max_pages.2.1 wAllFull 0 0 2000 H⟩

/-! ### Claim C8 -/

lemma collectSingleStockData_ok {b : Nat → A1Page} {bars : List Bar}
    {e : Int} {r : A1Result} (h : collectHistoricalTrades b e = .ok r) :
    collectSingleStockData b bars e
      = .ok ⟨r.ticks,
          bars.filter (fun b2 => containsSub (barStr b2) "1 min"),
          bars.filter (fun b2 => containsSub (barStr b2) "5 min"),
          bars.filter (fun b2 => containsSub (barStr b2) "15 min")⟩ := by
  simp only [collectSingleStockData, h]

lemma collectSingleStockData_error {b : Nat → A1Page} {bars : List Bar}
    {e : Int} {err : Unit} (h : collectHistoricalTrades b e = .error err) :
    collectSingleStockData b bars e = .error err := by
  simp only [collectSingleStockData, h]

/-- Activity 1 behavior whose chunk 0 delivers one row appended by the
historicalTicks callback (src/A1/activity1.py lines 35-49), which carries
no reqId key. -/
def cexUntagged : Nat → A1Page := fun i =>
  if i = 0 then ⟨[⟨none, 5⟩], true⟩ else ⟨[], true⟩

/-- C8 counterexample: a record delivered through the reqId-less
historicalTicks callback makes the page-size check
`t['reqId'] == req_id + chunk` raise KeyError, which escapes
`collect_single_stock_data` to the caller — so not every gateway behavior
yields a series without an unhandled failure. -/
theorem c8_exception_cex :
    (cexUntagged 0).delivered = [⟨none, 5⟩] ∧
    collectSingleStockData cexUntagged [] 100 = .error () := ⟨rfl, rfl⟩

/-- C8 (amended): Activity 3's chunk loop absorbs raised exceptions — the
except branch breaks the loop and the pages collected before the failing
request are returned — and Activity 1's collection entry point returns
without failure provided every delivered row carries its reqId key (as
rows appended by historicalTicksLast do); a row delivered through the
reqId-less historicalTicks callback instead raises KeyError out of
`collect_single_stock_data` (see the counterexample). -/
theorem c8_no_escape :
    (∀ (b : Nat → PageOutcome) (c : Nat) (s e : Int) (i : Nat),
      i < (collectTradeChunk b c s e).requests.length →
      b i = .raised →
        (collectTradeChunk b c s e).requests.length = i + 1 ∧
        (collectTradeChunk b c s e).reason = .raised ∧
        (collectTradeChunk b c s e).trades
          = pagesConcat (pageTicksAt b c) 0 i) ∧
    (∀ (b : Nat → A1Page) (bars : List Bar) (e : Int),
      (∀ i t, t ∈ (b i).delivered → t.reqId ≠ none) →
      ∃ res, collectSingleStockData b bars e = .ok res) := by
  constructor
  · intro b c s e i hi hb
    obtain ⟨h1, h2⟩ := collect_raised b c s e i hi hb
    refine ⟨h1.symm, h2, ?_⟩
    rw [collect_trades_eq, ← h1, pagesConcat_snoc, Nat.zero_add,
      show pageTicksAt b c i = [] from by simp only [pageTicksAt, hb],
      List.append_nil]
  · intro b bars e htag
    obtain ⟨n0, hn0⟩ :=
      countMatching_ok_of_tagged (l := (b 0).delivered) 1000
        (fun t ht => htag 0 t ht)
    have htag2 : ∀ t ∈ (b 0).delivered ++ (b 1).delivered, t.reqId ≠ none := by
      intro t ht
      rcases List.mem_append.mp ht with h | h
      exacts [htag 0 t h, htag 1 t h]
    obtain ⟨n1, hn1⟩ :=
      countMatching_ok_of_tagged (l := (b 0).delivered ++ (b 1).delivered)
        1001 htag2
    rcases collectHistoricalTrades_cases b e with
      ⟨err, he, hres⟩ | ⟨n, hn, hlt, hres⟩ |
      ⟨n, hn, hge, ⟨err, he, hres⟩ | ⟨m, hm, hres⟩⟩
    · rw [hn0] at he; cases he
    · exact ⟨_, collectSingleStockData_ok hres⟩
    · rw [hn1] at he; cases he
    · exact ⟨_, collectSingleStockData_ok hres⟩

/-- Gateway behavior raising an exception on every page request. -/
def wRaised : Nat → PageOutcome := fun _ => .raised

/-- C8 witness: a raised page 0 is absorbed by Activity 3's loop, and an
all-tagged (here empty) delivery stream lets Activity 1's entry point
return a result. -/
theorem c8_no_escape_witness :
    ((collectTradeChunk wRaised 0 0 100).requests.length = 0 + 1 ∧
      (collectTradeChunk wRaised 0 0 100).reason = .raised ∧
      (collectTradeChunk wRaised 0 0 100).trades
        = pagesConcat (pageTicksAt wRaised 0) 0 0) ∧
    (∃ res, collectSingleStockData wA1Empty [] 100 = .ok res) := by
  refine ⟨c8_no_escape.1 wRaised 0 0 100 0 ?_ rfl,
    c8_no_escape.2 wA1Empty [] 100 ?_⟩
  · show 0 < (collectTradeChunk wRaised 0 0 100).requests.length
    rw [show collectTradeChunk wRaised 0 0 100 = ⟨[], .raised, [100]⟩ from rfl]
    decide
  · intro i t ht
    exact absurd ht (List.not_mem_nil t)

/-! ### Claim C9 -/

/-- C9: for every gateway behavior, every input symbol/exchange (which only
parameterize the contract) and every date, Activity 3's
`collect_comprehensive_data` returns a dict whose eod_1year,
trades_3months and bbo_1day_1sec entries are the literal None — their
collection routines are never invoked, the calls being commented out at
src/A1/activity3.py lines 143, 150 and 164 — while only the
bbo_3months_1min entry is populated, with the `_collect_bbo_minute_data`
backfill over the three-month window ending one day before `today`. -/
theorem c9_only_bbo_minute :
    ∀ (bb : Nat → BlockOutcome) (today : Int),
      (collectComprehensiveData bb today).eod_1year = none ∧
      (collectComprehensiveData bb today).trades_3months = none ∧
      (collectComprehensiveData bb today).bbo_1day_1sec = none ∧
      (collectComprehensiveData bb today).bbo_3months_1min
        = some (collectBboMinuteData bb (today - 1 - 90) (today - 1)) :=
  fun _ _ => ⟨rfl, rfl, rfl, rfl⟩

/-! ### Claim C10 -/

/-- C10: whenever the trade collection returns (no KeyError) and no
accumulated bar dict's string rendering contains the substrings 1 min,
5 min or 15 min, `collect_single_stock_data` returns empty lists under the
bars_1min, bars_5min and bars_15min keys, regardless of how many bars were
collected. -/
theorem c10_empty_bar_frames :
    ∀ (tb : Nat → A1Page) (bars : List Bar) (e : Int) (res : SingleStockData),
      collectSingleStockData tb bars e = .ok res →
      (∀ b2 ∈ bars,
        containsSub (barStr b2) "1 min" = false ∧
        containsSub (barStr b2) "5 min" = false ∧
        containsSub (barStr b2) "15 min" = false) →
      res.bars_1min = [] ∧ res.bars_5min = [] ∧ res.bars_15min = [] := by
  intro tb bars e res hok hno
  cases hct : collectHistoricalTrades tb e with
  | error err =>
    rw [collectSingleStockData_error hct] at hok
    cases hok
  | ok r =>
    rw [collectSingleStockData_ok hct] at hok
    injection hok with hres
    rw [← hres]
    refine ⟨?_, ?_, ?_⟩
    · exact List.filter_eq_nil_iff.mpr (fun a ha => by simp [(hno a ha).1])
    · exact List.filter_eq_nil_iff.mpr (fun a ha => by simp [(hno a ha).2.1])
    · exact List.filter_eq_nil_iff.mpr (fun a ha => by simp [(hno a ha).2.2])

/-- A bar row as the historicalData callback would append it. -/
def testBar : Bar := ⟨"20250615 09:30:00", 1, 2, 3, 4, 5, 6, 7⟩

/-- C10 witness: a concrete run with one accumulated bar whose rendering
contains none of the probed substrings yields empty interval lists. -/
theorem c10_empty_bar_frames_witness :
    collectSingleStockData wA1Empty [testBar] 0 = .ok ⟨[], [], [], []⟩ ∧
    (∀ b2 ∈ [testBar],
      containsSub (barStr b2) "1 min" = false ∧
      containsSub (barStr b2) "5 min" = false ∧
      containsSub (barStr b2) "15 min" = false) ∧
    (SingleStockData.mk [] [] [] []).bars_1min = [] ∧
    (SingleStockData.mk [] [] [] []).bars_5min = [] ∧
    (SingleStockData.mk [] [] [] []).bars_15min = [] := by
  have h1 : collectSingleStockData wA1Empty [testBar] 0
      = .ok ⟨[], [], [], []⟩ := by rfl
  have h2 : ∀ b2 ∈ [testBar],
      containsSub (barStr b2) "1 min" = false ∧
      containsSub (barStr b2) "5 min" = false ∧
      containsSub (barStr b2) "15 min" = false := by decide
  have h3 := c10_empty_bar_frames wA1Empty [testBar] 0 ⟨[], [], [], []⟩ h1 h2
  exact ⟨h1, h2, h3.1, h3.2.1, h3.2.2⟩

end Backfill
